import Mathlib

/-!
# Verification of the GLTR-style token-probability-ranking backend

Shallow embedding of `src/backend/api.py`: the two causal pipeline classes
(registered as `aragpt2-base` and `aragpt2-mega`), the masked pipeline class
(`arabertv02-base`), their `check_probabilities` operations and `postprocess`
token cleaners, the masked-context windowing and batching, and the
rank / top-K extraction.

The opaque collaborators (the pretrained model's forward pass, the tokenizer's
encode / decode / tokenize maps, and the text normalizer) are modelled as
function-valued fields of a structure, exactly as the spec treats them
(opaque capabilities).  Scores are rationals; the forward pass composed with
the row-wise softmax normalization is modelled as one opaque function
producing per-position score rows, since softmax's transcendental values are
not exactly representable — its defining guarantees (each row is a
probability vector of vocabulary length) enter as explicit hypotheses where a
statement depends on them.
-/

namespace GLTR

/-- The externally visible result of `check_probabilities`: the dict with
keys `bpe_strings`, `real_topk`, `pred_topk` built at the end of each
pipeline. -/
structure Payload where
  bpe_strings : List String
  real_topk : List (Nat × ℚ)
  pred_topk : List (List (String × ℚ))
deriving DecidableEq

/-- Python's `round(x, 5)`: scale by `10^5`, round to an integer, scale back.
(Python uses round-half-to-even on binary floats; on exact rationals the two
conventions differ only at exact half-ulp ties, which no statement below
depends on.) -/
def round5 (x : ℚ) : ℚ := ((round (x * 100000) : ℤ) : ℚ) / 100000

/-- `np.where(l == y)[0][0]`: index of the first occurrence of `y` in `l`
(the Python raises when `y` is absent; the model returns 0 there, and every
use below carries a membership hypothesis). -/
def whereFirst (y : Nat) : List Nat → Nat
  | [] => 0
  | a :: t => if a = y then 0 else whereFirst y t + 1

/-- The strict order realized by `np.argsort(-yhat)` read as a stable
descending sort: index `i` is listed before `j` when its score is strictly
larger, ties broken by original index. -/
def idxBefore (v : Nat → ℚ) (i j : Nat) : Prop :=
  v j < v i ∨ (v i = v j ∧ i < j)

instance (v : Nat → ℚ) (i j : Nat) : Decidable (idxBefore v i j) :=
  inferInstanceAs (Decidable (v j < v i ∨ (v i = v j ∧ i < j)))

/-- Insert index `i` into an index list already sorted by `idxBefore`. -/
def insIdx (v : Nat → ℚ) (i : Nat) : List Nat → List Nat
  | [] => [i]
  | j :: t => if idxBefore v j i then j :: insIdx v i t else i :: j :: t

/-- Stable insertion sort of an index list by `idxBefore`. -/
def isort (v : Nat → ℚ) : List Nat → List Nat
  | [] => []
  | i :: t => insIdx v i (isort v t)

/-- `np.argsort(-row)`: the vocabulary indices of one score row, sorted by
strictly descending score, ties by index. -/
def argsortDesc (row : List ℚ) : List Nat :=
  isort (fun j => row.getD j 0) (List.range row.length)

/-- The number of vocabulary entries scoring strictly above entry `y`. -/
def strictGreaterCount (row : List ℚ) (y : Nat) : Nat :=
  (List.range row.length).countP (fun j => decide (row.getD y 0 < row.getD j 0))

/-- Python's `token.startswith(pre)`, modelled on the character sequence
(kernel-computable, unlike `String.startsWith`'s byte-level loop). -/
def strPre (pre token : String) : Bool := pre.data.isPrefixOf token.data

/-- Python's `token[n:]`: drop the first `n` characters. -/
def strDrop (token : String) (n : Nat) : String := ⟨token.data.drop n⟩

/-- Opaque collaborators of a causal pipeline (spec §6): text normalizer
(`arabert_prep.preprocess`), tokenizer `encode`, decoder table
`enc.decoder`, and the model forward pass composed with the row-wise softmax
(`softmax(model(context)[0])`), one score row per input position. -/
structure CausalModel where
  arabert_prep : String → String
  encode : String → List Nat
  forwardProbs : List Nat → List (List ℚ)
  decoder : Nat → String

namespace LMbase

/-- `LM.postprocess` of the class registered as `aragpt2-base`
(api.py lines 166-189). -/
def postprocess (token : String) : String :=
  let step : Bool × Bool × String :=
    if strPre "Ġ" token then (true, false, strDrop token 1)
    else if strPre "â" token then (false, false, " ")
    else if strPre "Ċ" token then (false, true, " ")
    else (false, false, token)
  let with_space := step.1
  let with_break := step.2.1
  let token := step.2.2
  let token := if strPre "â" token then "-" else token
  let token := if strPre "ľ" token then "“" else token
  let token := if strPre "Ŀ" token then "”" else token
  let token := if strPre "Ļ" token then "'" else token
  let token := if with_space then "Ġ" ++ token else token
  let token := if with_break then "Ċ" ++ token else token
  token

/-- `LM.check_probabilities` of the class registered as `aragpt2-base`
(api.py lines 85-134).  `yhat` is the softmax of `logits[0, :-1]`, i.e. the
forward rows with the last dropped; `y = context[0, 1:]`. -/
def check_probabilities (M : CausalModel) (in_text : String) (topk : Nat) :
    Payload :=
  let in_text := M.arabert_prep in_text
  let context := M.encode in_text
  let yhat := (M.forwardProbs context).dropLast
  let y := context.drop 1
  let sorted_preds := yhat.map argsortDesc
  let real_topk_pos := (List.range y.length).map (fun i =>
    whereFirst (y.getD i 0) (sorted_preds.getD i []))
  let real_topk_probs := (List.range y.length).map (fun i =>
    round5 ((yhat.getD i []).getD (y.getD i 0) 0))
  let real_topk := real_topk_pos.zip real_topk_probs
  let bpe_strings := context.map (fun s => M.decoder s)
  let bpe_strings := bpe_strings.map (fun s => postprocess s)
  let pred_topk := (List.range y.length).map (fun i =>
    (((sorted_preds.getD i []).take topk).map M.decoder).zip
      (((sorted_preds.getD i []).take topk).map (fun p =>
        round5 ((yhat.getD i []).getD p 0))))
  let pred_topk := pred_topk.map (fun pred => pred.map (fun t =>
    (postprocess t.1, t.2)))
  ⟨bpe_strings, real_topk, pred_topk⟩

end LMbase

namespace LMmega

/-- `LM.postprocess` of the class registered as `aragpt2-mega`
(api.py lines 286-309; the class body is a token-for-token copy of the
`aragpt2-base` one, differing only in which model-loading capability the
constructor binds). -/
def postprocess (token : String) : String :=
  let step : Bool × Bool × String :=
    if strPre "Ġ" token then (true, false, strDrop token 1)
    else if strPre "â" token then (false, false, " ")
    else if strPre "Ċ" token then (false, true, " ")
    else (false, false, token)
  let with_space := step.1
  let with_break := step.2.1
  let token := step.2.2
  let token := if strPre "â" token then "-" else token
  let token := if strPre "ľ" token then "“" else token
  let token := if strPre "Ŀ" token then "”" else token
  let token := if strPre "Ļ" token then "'" else token
  let token := if with_space then "Ġ" ++ token else token
  let token := if with_break then "Ċ" ++ token else token
  token

/-- `LM.check_probabilities` of the class registered as `aragpt2-mega`
(api.py lines 205-254). -/
def check_probabilities (M : CausalModel) (in_text : String) (topk : Nat) :
    Payload :=
  let in_text := M.arabert_prep in_text
  let context := M.encode in_text
  let yhat := (M.forwardProbs context).dropLast
  let y := context.drop 1
  let sorted_preds := yhat.map argsortDesc
  let real_topk_pos := (List.range y.length).map (fun i =>
    whereFirst (y.getD i 0) (sorted_preds.getD i []))
  let real_topk_probs := (List.range y.length).map (fun i =>
    round5 ((yhat.getD i []).getD (y.getD i 0) 0))
  let real_topk := real_topk_pos.zip real_topk_probs
  let bpe_strings := context.map (fun s => M.decoder s)
  let bpe_strings := bpe_strings.map (fun s => postprocess s)
  let pred_topk := (List.range y.length).map (fun i =>
    (((sorted_preds.getD i []).take topk).map M.decoder).zip
      (((sorted_preds.getD i []).take topk).map (fun p =>
        round5 ((yhat.getD i []).getD p 0))))
  let pred_topk := pred_topk.map (fun pred => pred.map (fun t =>
    (postprocess t.1, t.2)))
  ⟨bpe_strings, real_topk, pred_topk⟩

end LMmega

/-- One masked context window (api.py lines 357-383): clone the id sequence,
overwrite position `mask_index + 1` with the mask id, slice to
`[min_index, max_index)` with `min_index = max(0, mask_index - max_context)`
and `max_index = min(N - 1, mask_index + max_context + 1)`, then pad with the
pad id following the three-branch padding logic.  (Natural subtraction
coincides with the Python values: every subtraction below is provably
nonnegative in context.) -/
def buildWindow (y : List Nat) (mask_tok pad max_context mask_index : Nat) :
    List Nat :=
  let tokens := y.set (mask_index + 1) mask_tok
  let min_index := mask_index - max_context
  let max_index := min (y.length - 1) (mask_index + max_context + 1)
  let tokens := (tokens.take max_index).drop min_index
  let needed_padding := (max_context * 2 + 1) - tokens.length
  if min_index = 0 ∧ max_index = y.length - 1 then
    let left_needed := max_context - mask_index
    let right_needed := needed_padding - left_needed
    List.replicate left_needed pad ++ tokens ++ List.replicate right_needed pad
  else if min_index = 0 then
    List.replicate needed_padding pad ++ tokens
  else if max_index = y.length - 1 then
    tokens ++ List.replicate needed_padding pad
  else tokens

/-- The grouping of mask indices produced by the batch-construction loop
(api.py lines 352-357): for each `min_ix` in `range(0, N, batch_size)` the
group holds `mask_index = min_ix + running_ix` for `running_ix` in
`range(max_ix - min_ix)` with `max_ix = min(min_ix + batch_size, N - 1)`. -/
def windowGroups (N B : Nat) : List (List Nat) :=
  ((List.range ((N + B - 1) / B)).map (fun k => k * B)).map (fun min_ix =>
    List.range' min_ix (min (min_ix + B) (N - 1) - min_ix))

/-- Opaque collaborators of the masked pipeline: text normalizer, tokenizer
split and id maps, the `[MASK]` and `[PAD]` ids, and the model forward pass
composed with the row-wise softmax on one window.  (The code softmaxes the
extracted row `model(src)[:, max_context + 1]`; extracting from row-wise
normalized scores is the same value, and batch rows are computed
independently.) -/
structure MaskedModel where
  arabert_prep : String → String
  tokenize : String → List String
  tokToId : String → Nat
  idToTok : Nat → String
  mask_tok : Nat
  pad : Nat
  forwardProbs : List Nat → List (List ℚ)

namespace BERTLM

/-- `BERTLM.postprocess` (api.py lines 428-442): the leading-space flag
defaults to `True` and is cleared only by the `##` continuation marker;
`[SEP]` is flagged as a line break. -/
def postprocess (token : String) : String :=
  let with_space := !(strPre "##" token)
  let with_break := token == "[SEP]"
  let token := if strPre "##" token then strDrop token 2 else token
  let token := if with_space then "Ġ" ++ token else token
  let token := if with_break then "Ċ" ++ token else token
  token

/-- `BERTLM.check_probabilities` (api.py lines 330-426): wrap the normalized
text in `[CLS] … [SEP]`, tokenize, build the window groups, fail (the
`torch.cat` of an empty list raises) when some group is empty, otherwise run
each batch, extract the score row at offset `max_context + 1` of every
window, and assemble ranks, probabilities (unrounded) and top-K lists. -/
def check_probabilities (M : MaskedModel) (in_text : String)
    (topk max_context batch_size : Nat) : Option Payload :=
  let in_text := M.arabert_prep in_text
  let in_text := "[CLS] " ++ in_text ++ " [SEP]"
  let tokenized_text := M.tokenize in_text
  let y_toks := tokenized_text.map M.tokToId
  let groups := windowGroups y_toks.length batch_size
  if groups.any (fun g => g.isEmpty) then none else
  let input_batches := groups.map (fun g => g.map (fun mi =>
    buildWindow y_toks M.mask_tok M.pad max_context mi))
  let target_batches := groups.map (fun g => g.map (fun mi =>
    y_toks.getD (mi + 1) 0))
  let batchResults := (input_batches.zip target_batches).map (fun st =>
    let yhat := st.1.map (fun w => (M.forwardProbs w).getD (max_context + 1) [])
    let real := (List.range yhat.length).map (fun i =>
      (whereFirst (st.2.getD i 0) (argsortDesc (yhat.getD i [])),
       (yhat.getD i []).getD (st.2.getD i 0) 0))
    let pred := (List.range yhat.length).map (fun i =>
      ((((argsortDesc (yhat.getD i [])).take topk).map M.idToTok).zip
        (((argsortDesc (yhat.getD i [])).take topk).map (fun p =>
          (yhat.getD i []).getD p 0))))
    (real, pred))
  let real_topk := (batchResults.map (fun r => r.1)).flatten
  let pred_topk := (batchResults.map (fun r => r.2)).flatten
  let bpe_strings := tokenized_text.map (fun s => postprocess s)
  let pred_topk := pred_topk.map (fun pred => pred.map (fun t =>
    (postprocess t.1, t.2)))
  some ⟨bpe_strings, real_topk, pred_topk⟩

end BERTLM

/-! ## Derived views of the pipelines

Accessor definitions naming the intermediate values of the source
expressions, used to state properties of the payloads. -/

/-- The encoded context of the causal pipelines:
`context = enc.encode(arabert_prep.preprocess(in_text))`. -/
def causalCtx (M : CausalModel) (text : String) : List Nat :=
  M.encode (M.arabert_prep text)

/-- Row `i` of the causal pipelines' `yhat = softmax(logits[0, :-1])`. -/
def causalRow (M : CausalModel) (text : String) (i : Nat) : List ℚ :=
  ((M.forwardProbs (causalCtx M text)).dropLast).getD i []

/-- Ground-truth token `i` of the causal pipelines: `y = context[0, 1:]`. -/
def causalTgt (M : CausalModel) (text : String) (i : Nat) : Nat :=
  ((causalCtx M text).drop 1).getD i 0

/-- The masked pipeline's `tokenized_text`, including the `[CLS]` / `[SEP]`
boundary markers. -/
def maskedTokenized (M : MaskedModel) (text : String) : List String :=
  M.tokenize ("[CLS] " ++ M.arabert_prep text ++ " [SEP]")

/-- The masked pipeline's `y_toks`. -/
def maskedToks (M : MaskedModel) (text : String) : List Nat :=
  (maskedTokenized M text).map M.tokToId

/-- The score row the masked pipeline extracts for target index `mi`:
offset `max_context + 1` of the forward output on that window. -/
def maskedRow (M : MaskedModel) (text : String) (R mi : Nat) : List ℚ :=
  (M.forwardProbs (buildWindow (maskedToks M text) M.mask_tok M.pad R mi)).getD
    (R + 1) []

/-- The masked pipeline's ground truth for target index `mi`:
`y[:, mask_index + 1]`. -/
def maskedTgt (M : MaskedModel) (text : String) (mi : Nat) : Nat :=
  (maskedToks M text).getD (mi + 1) 0

/-! ## Concrete collaborator instances

Small closed instances of the opaque collaborators, used to evaluate the
pipelines on specific inputs. -/

/-- A causal collaborator whose tokenizer produces the 2-token context
`[0, 1]` and whose normalized forward output is `[1/4, 3/4]` at each
position. -/
def cmodel2 : CausalModel :=
  { arabert_prep := fun s => s
    encode := fun _ => [0, 1]
    forwardProbs := fun _ => [[mkRat 1 4, mkRat 3 4], [mkRat 1 4, mkRat 3 4]]
    decoder := fun n => toString n }

/-- A masked collaborator whose tokenizer produces exactly the 3 tokens
`[CLS] w [SEP]` (ids `0, 1, 2`) and whose normalized forward output row is
`[1/6, 1/3, 1/2]` at every window position. -/
def mmodel3 : MaskedModel :=
  { arabert_prep := fun s => s
    tokenize := fun _ => ["[CLS]", "w", "[SEP]"]
    tokToId := fun t => if t == "[CLS]" then 0 else if t == "w" then 1 else 2
    idToTok := fun n => toString n
    mask_tok := 3
    pad := 4
    forwardProbs := fun _ => List.replicate 22 [mkRat 1 6, mkRat 1 3, mkRat 1 2] }

/-- The payload `mmodel3` produces for `topk = 5`, `max_context = 20`,
`batch_size = 20`. -/
def mm3payload : Payload :=
  { bpe_strings := ["Ġ[CLS]", "Ġw", "ĊĠ[SEP]"]
    real_topk := [(1, mkRat 1 3), (0, mkRat 1 2)]
    pred_topk := [[("Ġ2", mkRat 1 2), ("Ġ1", mkRat 1 3), ("Ġ0", mkRat 1 6)],
                  [("Ġ2", mkRat 1 2), ("Ġ1", mkRat 1 3), ("Ġ0", mkRat 1 6)]] }

/-- A masked collaborator whose tokenizer produces only the 2 boundary
tokens `[CLS] [SEP]` — the tokenization of an empty input. -/
def mmodel2 : MaskedModel :=
  { arabert_prep := fun s => s
    tokenize := fun _ => ["[CLS]", "[SEP]"]
    tokToId := fun t => if t == "[CLS]" then 0 else 1
    idToTok := fun n => toString n
    mask_tok := 3
    pad := 4
    forwardProbs := fun _ => List.replicate 22 [mkRat 1 6, mkRat 1 3, mkRat 1 2] }

/-- A masked collaborator whose tokenizer produces 21 tokens, so that with
the default batch size 20 the batch loop builds an empty final group. -/
def mmodel21 : MaskedModel :=
  { arabert_prep := fun s => s
    tokenize := fun _ => List.replicate 21 "w"
    tokToId := fun _ => 1
    idToTok := fun _ => "w"
    mask_tok := 3
    pad := 4
    forwardProbs := fun _ => [] }

/-! ## The descending stable sort order -/

theorem idxBefore_irrefl (v : Nat → ℚ) (i : Nat) : ¬ idxBefore v i i := by
  simp [idxBefore]

theorem idxBefore_asymm {v : Nat → ℚ} {i j : Nat} (h : idxBefore v i j) :
    ¬ idxBefore v j i := by
  unfold idxBefore at *
  rcases h with h | ⟨h1, h2⟩ <;> rintro (h3 | ⟨h4, h5⟩) <;> linarith

theorem idxBefore_trans {v : Nat → ℚ} {i j k : Nat} (h1 : idxBefore v i j)
    (h2 : idxBefore v j k) : idxBefore v i k := by
  unfold idxBefore at *
  rcases h1 with h1 | ⟨h1a, h1b⟩ <;> rcases h2 with h2 | ⟨h2a, h2b⟩ <;>
    first
      | exact Or.inl (by linarith)
      | exact Or.inr ⟨by linarith, by omega⟩

theorem idxBefore_total {v : Nat → ℚ} {i j : Nat} (h : i ≠ j) :
    idxBefore v i j ∨ idxBefore v j i := by
  unfold idxBefore
  rcases lt_trichotomy (v i) (v j) with h1 | h1 | h1
  · exact Or.inr (Or.inl h1)
  · rcases Nat.lt_or_ge i j with h2 | h2
    · exact Or.inl (Or.inr ⟨h1, h2⟩)
    · exact Or.inr (Or.inr ⟨h1.symm, by omega⟩)
  · exact Or.inl (Or.inl h1)

theorem insIdx_perm (v : Nat → ℚ) (i : Nat) (l : List Nat) :
    (insIdx v i l).Perm (i :: l) := by
  induction l with
  | nil => simp [insIdx]
  | cons j t ih =>
    by_cases h : idxBefore v j i
    · simp only [insIdx, if_pos h]
      exact (ih.cons j).trans (List.Perm.swap i j t)
    · simp [insIdx, if_neg h]

theorem isort_perm (v : Nat → ℚ) (l : List Nat) : (isort v l).Perm l := by
  induction l with
  | nil => simp [isort]
  | cons i t ih => exact (insIdx_perm v i (isort v t)).trans (ih.cons i)

theorem insIdx_pairwise {v : Nat → ℚ} {i : Nat} {l : List Nat}
    (hl : l.Pairwise (idxBefore v)) (hne : ∀ j ∈ l, j ≠ i) :
    (insIdx v i l).Pairwise (idxBefore v) := by
  induction l with
  | nil => simp [insIdx]
  | cons j t ih =>
    rcases List.pairwise_cons.mp hl with ⟨hj, ht⟩
    by_cases h : idxBefore v j i
    · simp only [insIdx, if_pos h]
      refine List.pairwise_cons.mpr
        ⟨?_, ih ht (fun x hx => hne x (List.mem_cons_of_mem _ hx))⟩
      intro x hx
      rcases List.mem_cons.mp ((insIdx_perm v i t).mem_iff.mp hx) with rfl | hx2
      · exact h
      · exact hj x hx2
    · simp only [insIdx, if_neg h]
      have hij : idxBefore v i j := by
        rcases idxBefore_total (v := v)
          (fun he => (hne j (List.mem_cons_self j t)) he.symm) with h2 | h2
        · exact h2
        · exact absurd h2 h
      refine List.pairwise_cons.mpr ⟨?_, hl⟩
      intro x hx
      rcases List.mem_cons.mp hx with rfl | hx2
      · exact hij
      · exact idxBefore_trans hij (hj x hx2)

theorem isort_pairwise {v : Nat → ℚ} {l : List Nat} (hl : l.Nodup) :
    (isort v l).Pairwise (idxBefore v) := by
  induction l with
  | nil => simp [isort]
  | cons i t ih =>
    rcases List.nodup_cons.mp hl with ⟨hi, ht⟩
    refine insIdx_pairwise (ih ht) ?_
    intro j hj he
    exact hi (he ▸ (isort_perm v t).mem_iff.mp hj)

theorem argsortDesc_perm (row : List ℚ) :
    (argsortDesc row).Perm (List.range row.length) := isort_perm _ _

theorem argsortDesc_length (row : List ℚ) :
    (argsortDesc row).length = row.length := by
  simpa using (argsortDesc_perm row).length_eq

theorem argsortDesc_pairwise (row : List ℚ) :
    (argsortDesc row).Pairwise (idxBefore (fun j => row.getD j 0)) :=
  isort_pairwise (List.nodup_range _)

theorem argsortDesc_sorted (row : List ℚ) :
    (argsortDesc row).Pairwise (fun i j => row.getD j 0 ≤ row.getD i 0) := by
  refine (argsortDesc_pairwise row).imp ?_
  rintro i j (h | ⟨h1, _⟩)
  · exact le_of_lt h
  · exact le_of_eq h1.symm

/-! ## The rank computation -/

theorem whereFirst_lt_length {y : Nat} {l : List Nat} (h : y ∈ l) :
    whereFirst y l < l.length := by
  induction l with
  | nil => cases h
  | cons a t ih =>
    by_cases ha : a = y
    · simp [whereFirst, ha]
    · rcases List.mem_cons.mp h with rfl | h2
      · exact absurd rfl ha
      · simp only [whereFirst, if_neg ha, List.length_cons]
        exact Nat.succ_lt_succ (ih h2)

theorem whereFirst_eq_countP {v : Nat → ℚ} {y : Nat} {l : List Nat}
    (hs : l.Pairwise (idxBefore v)) (hy : y ∈ l) :
    whereFirst y l = l.countP (fun j => decide (idxBefore v j y)) := by
  induction l with
  | nil => cases hy
  | cons a t ih =>
    rcases List.pairwise_cons.mp hs with ⟨ha, ht⟩
    by_cases h : a = y
    · subst h
      have h0 : t.countP (fun j => decide (idxBefore v j a)) = 0 := by
        refine List.countP_eq_zero.mpr ?_
        intro j hj
        simpa using idxBefore_asymm (ha j hj)
      simp [whereFirst, List.countP_cons, h0, idxBefore_irrefl]
    · have hyt : y ∈ t := by
        rcases List.mem_cons.mp hy with rfl | h2
        · exact absurd rfl h
        · exact h2
      have hay : decide (idxBefore v a y) = true := decide_eq_true (ha y hyt)
      simp [whereFirst, if_neg h, List.countP_cons, hay, ih ht hyt]

theorem rank_eq_countP (row : List ℚ) (y : Nat) (hy : y < row.length) :
    whereFirst y (argsortDesc row) =
      (List.range row.length).countP
        (fun j => decide (idxBefore (fun k => row.getD k 0) j y)) := by
  have hmem : y ∈ argsortDesc row :=
    (argsortDesc_perm row).mem_iff.mpr (List.mem_range.mpr hy)
  rw [whereFirst_eq_countP (argsortDesc_pairwise row) hmem]
  exact (argsortDesc_perm row).countP_eq _

theorem rank_lt_length (row : List ℚ) (y : Nat) (hy : y < row.length) :
    whereFirst y (argsortDesc row) < row.length := by
  have hmem : y ∈ argsortDesc row :=
    (argsortDesc_perm row).mem_iff.mpr (List.mem_range.mpr hy)
  have h := whereFirst_lt_length hmem
  rwa [argsortDesc_length] at h

theorem rank_eq_strictGreaterCount (row : List ℚ) (y : Nat)
    (hy : y < row.length)
    (hnotie : ∀ j < row.length, j ≠ y → row.getD j 0 ≠ row.getD y 0) :
    whereFirst y (argsortDesc row) = strictGreaterCount row y := by
  rw [rank_eq_countP row y hy]
  unfold strictGreaterCount
  rw [List.countP_eq_length_filter, List.countP_eq_length_filter,
    List.filter_congr ?_]
  intro j hj
  have hjlt := List.mem_range.mp hj
  by_cases hjy : j = y
  · subst hjy
    simp [idxBefore_irrefl]
  · simp only [decide_eq_decide]
    constructor
    · rintro (h | ⟨h1, _⟩)
      · exact h
      · exact absurd h1 (hnotie j hjlt hjy)
    · exact fun h => Or.inl h

theorem rank_zero_iff (row : List ℚ) (y : Nat) (hy : y < row.length)
    (hnotie : ∀ j < row.length, j ≠ y → row.getD j 0 ≠ row.getD y 0) :
    whereFirst y (argsortDesc row) = 0 ↔
      ∀ j < row.length, row.getD j 0 ≤ row.getD y 0 := by
  rw [rank_eq_strictGreaterCount row y hy hnotie]
  unfold strictGreaterCount
  rw [List.countP_eq_zero]
  constructor
  · intro h j hj
    have := h j (List.mem_range.mpr hj)
    simpa [not_lt] using this
  · intro h j hj
    simpa [not_lt] using h j (List.mem_range.mp hj)

/-! ## Rounding -/

theorem round5_mono {x y : ℚ} (h : x ≤ y) : round5 x ≤ round5 y := by
  unfold round5
  have h2 : round (x * 100000) ≤ round (y * 100000) := by
    rw [round_eq, round_eq]
    exact Int.floor_le_floor (by linarith)
  have h3 : ((round (x * 100000) : ℤ) : ℚ) ≤ ((round (y * 100000) : ℤ) : ℚ) := by
    exact_mod_cast h2
  exact (div_le_div_iff_of_pos_right (by norm_num)).mpr h3

theorem round5_zero : round5 0 = 0 := by
  simp [round5]

theorem round5_one : round5 1 = 1 := by
  unfold round5
  norm_num [round_eq]

theorem round5_nonneg {x : ℚ} (h : 0 ≤ x) : 0 ≤ round5 x := by
  have h2 := round5_mono h
  rwa [round5_zero] at h2

theorem round5_le_one {x : ℚ} (h : x ≤ 1) : round5 x ≤ 1 := by
  have h2 := round5_mono h
  rwa [round5_one] at h2

theorem round5_idem (x : ℚ) : round5 (round5 x) = round5 x := by
  unfold round5
  rw [div_mul_cancel₀ _ (by norm_num : (100000 : ℚ) ≠ 0), round_intCast]

/-! ## Generic list helpers -/

theorem zipWith_map_same (F : β → γ → δ) (f : α → β) (g : α → γ) (l : List α) :
    List.zipWith F (l.map f) (l.map g) = l.map fun x => F (f x) (g x) := by
  induction l with
  | nil => rfl
  | cons a t ih => simp [ih]

theorem range_map_getD (F : β → γ → δ) (d₁ : β) (d₂ : γ) :
    ∀ (l₁ : List β) (l₂ : List γ), l₂.length = l₁.length →
      (List.range l₁.length).map
        (fun i => F (l₁.getD i d₁) (l₂.getD i d₂)) = List.zipWith F l₁ l₂ := by
  intro l₁
  induction l₁ with
  | nil => intro l₂ h; simp
  | cons b t ih =>
    intro l₂ h
    rcases l₂ with _ | ⟨c, t₂⟩
    · simp at h
    · have h2 : t₂.length = t.length := by simpa using h
      simp only [List.length_cons, List.range_succ_eq_map, List.map_cons,
        List.map_map, List.zipWith_cons_cons, List.getD_cons_zero]
      refine congrArg₂ List.cons rfl ?_
      rw [← ih t₂ h2]
      refine List.map_eq_map_iff.mpr ?_
      intro i _
      simp [Function.comp, List.getD_cons_succ]

theorem range_map_getD_one (F : β → δ) (d : β) (l : List β) :
    (List.range l.length).map (fun i => F (l.getD i d)) = l.map F := by
  induction l with
  | nil => simp
  | cons b t ih =>
    simp only [List.length_cons, List.range_succ_eq_map, List.map_cons,
      List.map_map, List.getD_cons_zero]
    refine congrArg₂ List.cons rfl ?_
    rw [← ih]
    refine List.map_eq_map_iff.mpr ?_
    intro i _
    simp [Function.comp, List.getD_cons_succ]

theorem getD_map_argsortDesc (yhat : List (List ℚ)) (i : Nat) :
    (yhat.map argsortDesc).getD i [] = argsortDesc (yhat.getD i []) := by
  by_cases h : i < yhat.length
  · rw [List.getD_eq_getElem _ _ (by simpa using h), List.getD_eq_getElem _ _ h,
      List.getElem_map]
  · rw [List.getD_eq_default _ _ (by simpa using Nat.le_of_not_lt h),
      List.getD_eq_default _ _ (Nat.le_of_not_lt h)]
    rfl

theorem getD_bound {row : List ℚ}
    (h : ∀ x ∈ row, 0 ≤ x ∧ x ≤ 1) (t : Nat) :
    0 ≤ row.getD t 0 ∧ row.getD t 0 ≤ 1 := by
  by_cases ht : t < row.length
  · rw [List.getD_eq_getElem _ _ ht]
    exact h _ (List.getElem_mem ht)
  · rw [List.getD_eq_default _ _ (Nat.le_of_not_lt ht)]
    norm_num

theorem take_replicate_append (n m : Nat) (a : α) (l : List α) (h : m ≤ n) :
    (List.replicate n a ++ l).take m = List.replicate m a := by
  rw [List.take_append_of_le_length (by simpa using h), List.take_replicate,
    min_eq_left h]

/-! ## The batch construction -/

theorem grouped_flatten (B E : Nat) :
    ∀ (K s : Nat), E ≤ s + B * K →
      (((List.range K).map (fun k => List.range' (s + B * k)
          (min (s + B * k + B) E - (s + B * k)))).flatten) =
        List.range' s (E - s) := by
  intro K
  induction K with
  | zero =>
    intro s h
    have h2 : E - s = 0 := by simp at h; omega
    simp [h2]
  | succ K ih =>
    intro s h
    have hms : B * (K + 1) = B * K + B := Nat.mul_succ B K
    rw [List.range_succ_eq_map]
    simp only [List.map_cons, List.map_map, List.flatten_cons, Nat.mul_zero,
      Nat.add_zero]
    have htail : ((List.range K).map ((fun k => List.range' (s + B * k)
        (min (s + B * k + B) E - (s + B * k))) ∘ Nat.succ)).flatten =
        List.range' (s + B) (E - (s + B)) := by
      rw [← ih (s + B) (by omega)]
      refine congrArg List.flatten (List.map_eq_map_iff.mpr ?_)
      intro k _
      simp only [Function.comp_apply, Nat.mul_succ]
      congr 1 <;> omega
    rw [htail]
    by_cases hE : s + B ≤ E
    · rw [min_eq_left hE]
      have hlen : s + B - s = B := by omega
      rw [hlen]
      have happ := List.range'_append s B (E - (s + B)) 1
      simp only [Nat.one_mul, Nat.mul_one] at happ
      have hsum : E - (s + B) + B = E - s := by omega
      rw [happ, hsum]
    · push_neg at hE
      rw [min_eq_right (le_of_lt hE)]
      have h2 : E - (s + B) = 0 := by omega
      rw [h2]
      simp

theorem windowGroups_eq (N B : Nat) :
    windowGroups N B = (List.range ((N + B - 1) / B)).map (fun k =>
      List.range' (B * k) (min (B * k + B) (N - 1) - B * k)) := by
  unfold windowGroups
  rw [List.map_map]
  refine List.map_eq_map_iff.mpr ?_
  intro k _
  simp [Nat.mul_comm]

theorem windowGroups_flatten (N B : Nat) (hB : 0 < B) :
    (windowGroups N B).flatten = List.range (N - 1) := by
  rw [windowGroups_eq]
  have hK : N - 1 ≤ 0 + B * ((N + B - 1) / B) := by
    rcases Nat.eq_zero_or_pos N with h | h
    · simp [h]
    · have h2 := Nat.div_add_mod (N + B - 1) B
      have h3 : (N + B - 1) % B < B := Nat.mod_lt _ hB
      omega
  have h := grouped_flatten B (N - 1) ((N + B - 1) / B) 0 hK
  simp only [Nat.zero_add] at h
  rw [h, Nat.sub_zero, List.range_eq_range']

theorem ceilDiv_eq (N B : Nat) (hB : 0 < B) (hN : 1 ≤ N) :
    (N + B - 1) / B = (N - 1) / B + 1 := by
  have h1 := Nat.div_add_mod (N - 1) B
  have h2 : (N - 1) % B < B := Nat.mod_lt _ hB
  have h3 : N + B - 1 = B * ((N - 1) / B + 1) + (N - 1) % B := by
    have h4 : B * ((N - 1) / B + 1) = B * ((N - 1) / B) + B := Nat.mul_succ ..
    omega
  rw [h3, Nat.mul_add_div hB, Nat.div_eq_of_lt h2, Nat.add_zero]

theorem windowGroups_getLast (N B : Nat) (hB : 0 < B) (hN : 1 ≤ N)
    (hmod : (N - 1) % B = 0) :
    (windowGroups N B).getLast? = some [] := by
  rw [windowGroups_eq, List.getLast?_map, ceilDiv_eq N B hB hN,
    List.range_succ, List.getLast?_concat]
  have h1 := Nat.div_add_mod (N - 1) B
  have h2 : min (B * ((N - 1) / B) + B) (N - 1) - B * ((N - 1) / B) = 0 := by
    omega
  simp [h2]

theorem windowGroups_ne_nil (N B : Nat) (hB : 0 < B)
    (hmod : (N - 1) % B ≠ 0) :
    ∀ g ∈ windowGroups N B, g ≠ [] := by
  rw [windowGroups_eq]
  intro g hg
  rcases List.mem_map.mp hg with ⟨k, hk, rfl⟩
  have hk2 := List.mem_range.mp hk
  intro hnil
  rw [List.range'_eq_nil] at hnil
  have h1 := Nat.div_add_mod (N - 1) B
  have h2 : (N - 1) % B < B := Nat.mod_lt _ hB
  have hN : 1 ≤ N := by
    by_contra hc
    have h0 : N = 0 := by omega
    rw [h0] at hmod
    simp at hmod
  rw [ceilDiv_eq N B hB hN] at hk2
  have h3 : B * k ≤ B * ((N - 1) / B) := Nat.mul_le_mul_left _ (by omega)
  omega

theorem windowGroups_any_false {N B : Nat}
    (h : ∀ g ∈ windowGroups N B, g ≠ []) :
    (windowGroups N B).any (fun g => g.isEmpty) = false := by
  rw [List.any_eq_false]
  intro g hg
  simpa [List.isEmpty_iff] using h g hg

/-! ## The context windows -/

theorem slice_getElem? (l : List α) (mi ma k : Nat) (h : mi + k < ma) :
    ((l.take ma).drop mi)[k]? = l[mi + k]? := by
  rw [List.getElem?_drop, List.getElem?_take_of_lt h]

theorem rep_append_getElem? (n : Nat) (a : α) (l : List α) (i : Nat)
    (h : n ≤ i) : (List.replicate n a ++ l)[i]? = l[i - n]? := by
  rw [List.getElem?_append_right (by simpa using h)]
  simp

/-- Every constructed window has total width exactly `2R + 1`
(`mask_index + 2 ≤ N` is the loop's guarantee `mask_index ≤ N - 2`). -/
theorem buildWindow_length (y : List Nat) (mask_tok pad R p : Nat)
    (h : p + 2 ≤ y.length) :
    (buildWindow y mask_tok pad R p).length = 2 * R + 1 := by
  simp only [buildWindow]
  split_ifs with h1 h2 h3 <;>
    simp only [List.length_append, List.length_replicate, List.length_drop,
      List.length_take, List.length_set] <;>
    omega

/-- For every target position except the last one, the mask id sits at
local offset `R + 1` of the window — one past the centre offset `R`. -/
theorem buildWindow_mask (y : List Nat) (mask_tok pad R p : Nat)
    (hR : 1 ≤ R) (h : p + 3 ≤ y.length) :
    (buildWindow y mask_tok pad R p)[R + 1]? = some mask_tok := by
  have hmem : (y.set (p + 1) mask_tok)[p + 1]? = some mask_tok :=
    List.getElem?_set_self (by omega)
  simp only [buildWindow, List.length_drop, List.length_take, List.length_set]
  split_ifs with h1 h2 h3
  · simp only [List.append_assoc]
    rw [rep_append_getElem? _ _ _ _ (by omega),
      List.getElem?_append_left (by
        simp only [List.length_drop, List.length_take, List.length_set]
        omega),
      slice_getElem? _ _ _ _ (by omega)]
    convert hmem using 2
    omega
  · rw [rep_append_getElem? _ _ _ _ (by omega),
      slice_getElem? _ _ _ _ (by omega)]
    convert hmem using 2
    omega
  · rw [List.getElem?_append_left (by
        simp only [List.length_drop, List.length_take, List.length_set]
        omega),
      slice_getElem? _ _ _ _ (by omega)]
    convert hmem using 2
    omega
  · rw [slice_getElem? _ _ _ _ (by omega)]
    convert hmem using 2
    omega

/-- For the last target position `p = N - 2` (the masked end marker), the
slice bound `N - 1` cuts the masked position off: local offset `R + 1`
holds the pad id, and no mask is present there. -/
theorem buildWindow_lastPad (y : List Nat) (mask_tok pad R p : Nat)
    (hR : 1 ≤ R) (h : p + 2 = y.length) :
    (buildWindow y mask_tok pad R p)[R + 1]? = some pad := by
  simp only [buildWindow, List.length_drop, List.length_take, List.length_set]
  split_ifs with h1 h2 h3
  · simp only [List.append_assoc]
    rw [rep_append_getElem? _ _ _ _ (by omega),
      List.getElem?_append_right (by
        simp only [List.length_drop, List.length_take, List.length_set]
        omega),
      List.getElem?_replicate_of_lt (by
        simp only [List.length_drop, List.length_take, List.length_set]
        omega)]
  · exact absurd ⟨h2, by omega⟩ h1
  · rw [List.getElem?_append_right (by
        simp only [List.length_drop, List.length_take, List.length_set]
        omega),
      List.getElem?_replicate_of_lt (by
        simp only [List.length_drop, List.length_take, List.length_set]
        omega)]
  · exact absurd (by omega) h3

/-- Near the start of a long document (`p < R`, `N > 2R + 1`) the window's
left padding is exactly `R - p` pad ids. -/
theorem buildWindow_leftPad (y : List Nat) (mask_tok pad R p : Nat)
    (hp : p < R) (hN : 2 * R + 1 < y.length) :
    (buildWindow y mask_tok pad R p).take (R - p) =
      List.replicate (R - p) pad := by
  simp only [buildWindow, List.length_drop, List.length_take, List.length_set]
  split_ifs with h1 h2 h3
  · exact absurd h1.2 (by omega)
  · exact take_replicate_append _ _ _ _ (by omega)
  · exact absurd h3 (by omega)
  · exact absurd (by omega : p - R = 0) h2

/-! ## Normal forms of the payloads -/

theorem map_range_getElem? (n i : Nat) (f : Nat → α) (h : i < n) :
    ((List.range n).map f)[i]? = some (f i) := by
  rw [List.getElem?_map, List.getElem?_range h]
  rfl

theorem range_map_getD_maps (F : β → γ → δ) (d₁ : β) (d₂ : γ) (g : List α)
    (f1 : α → β) (f2 : α → γ) :
    (List.range (g.map f1).length).map
      (fun i => F ((g.map f1).getD i d₁) ((g.map f2).getD i d₂)) =
      g.map fun x => F (f1 x) (f2 x) := by
  rw [range_map_getD F d₁ d₂ (g.map f1) (g.map f2) (by simp),
    zipWith_map_same]

theorem range_map_getD_map_one (F : β → δ) (d : β) (g : List α)
    (f1 : α → β) :
    (List.range (g.map f1).length).map (fun i => F ((g.map f1).getD i d)) =
      g.map fun x => F (f1 x) := by
  rw [range_map_getD_one F d (g.map f1), List.map_map]
  rfl

/-- The causal payload in closed form: `bpe_strings` covers all `N` context
tokens, while `real_topk` and `pred_topk` cover the `N - 1` predicted
positions `1 .. N-1`. -/
theorem causal_payload_eq (M : CausalModel) (text : String) (topk : Nat) :
    LMbase.check_probabilities M text topk =
      { bpe_strings := (causalCtx M text).map
          (fun s => LMbase.postprocess (M.decoder s))
        real_topk := (List.range ((causalCtx M text).length - 1)).map (fun i =>
          (whereFirst (causalTgt M text i) (argsortDesc (causalRow M text i)),
           round5 ((causalRow M text i).getD (causalTgt M text i) 0)))
        pred_topk := (List.range ((causalCtx M text).length - 1)).map (fun i =>
          ((argsortDesc (causalRow M text i)).take topk).map (fun pk =>
            (LMbase.postprocess (M.decoder pk),
             round5 ((causalRow M text i).getD pk 0)))) } := by
  simp only [LMbase.check_probabilities, Payload.mk.injEq]
  refine ⟨?_, ?_, ?_⟩
  · rw [List.map_map]
    rfl
  · rw [List.zip_map']
    simp only [List.length_drop]
    refine List.map_eq_map_iff.mpr ?_
    intro i _
    rw [getD_map_argsortDesc]
    rfl
  · rw [List.map_map]
    simp only [List.length_drop]
    refine List.map_eq_map_iff.mpr ?_
    intro i _
    simp only [Function.comp_apply]
    rw [getD_map_argsortDesc, List.zip_map', List.map_map]
    rfl

theorem real_batch_eq (g : List Nat) (rowOf : Nat → List ℚ)
    (tgtOf : Nat → Nat) :
    (List.range (g.map rowOf).length).map (fun i =>
      (whereFirst ((g.map tgtOf).getD i 0)
        (argsortDesc ((g.map rowOf).getD i [])),
       ((g.map rowOf).getD i []).getD ((g.map tgtOf).getD i 0) 0)) =
      g.map (fun mi => (whereFirst (tgtOf mi) (argsortDesc (rowOf mi)),
        (rowOf mi).getD (tgtOf mi) 0)) :=
  range_map_getD_maps
    (fun b c => (whereFirst c (argsortDesc b), b.getD c 0)) [] 0 g rowOf tgtOf

theorem pred_batch_eq (topk : Nat) (post : String → String)
    (idToTok : Nat → String) (g : List Nat) (rowOf : Nat → List ℚ) :
    (List.range (g.map rowOf).length).map (fun i =>
      (((((argsortDesc ((g.map rowOf).getD i [])).take topk).map idToTok).zip
        (((argsortDesc ((g.map rowOf).getD i [])).take topk).map (fun pk =>
          ((g.map rowOf).getD i []).getD pk 0))).map
        (fun t => (post t.1, t.2)))) =
      g.map (fun mi => ((argsortDesc (rowOf mi)).take topk).map (fun pk =>
        (post (idToTok pk), (rowOf mi).getD pk 0))) := by
  have h := range_map_getD_map_one (fun b =>
    (((((argsortDesc b).take topk).map idToTok).zip
      (((argsortDesc b).take topk).map (fun pk => b.getD pk 0))).map
      (fun t => (post t.1, t.2)))) [] g rowOf
  refine h.trans ?_
  refine List.map_eq_map_iff.mpr ?_
  intro mi _
  rw [List.zip_map', List.map_map]
  rfl

/-- If the masked pipeline returns a payload then no window group was
empty. -/
theorem masked_some_ne_empty {M : MaskedModel} {text : String}
    {topk R B : Nat} {p : Payload}
    (h : BERTLM.check_probabilities M text topk R B = some p) :
    ∀ g ∈ windowGroups (maskedTokenized M text).length B, g ≠ [] := by
  intro g hg hnil
  subst hnil
  have hmem : ([] : List Nat) ∈ windowGroups
      ((M.tokenize ("[CLS] " ++ M.arabert_prep text ++ " [SEP]")).map
        M.tokToId).length B := by
    simpa [maskedTokenized, List.length_map] using hg
  have hany : (windowGroups ((M.tokenize ("[CLS] " ++ M.arabert_prep text ++
      " [SEP]")).map M.tokToId).length B).any (fun g => g.isEmpty) = true :=
    List.any_eq_true.mpr ⟨[], hmem, rfl⟩
  simp only [BERTLM.check_probabilities] at h
  rw [hany] at h
  simp at h

/-- The masked payload in closed form: when no window group is empty, the
pipeline returns a payload whose rank / top-K entries are indexed by the
mask indices `0 .. N-2`, i.e. by the token positions `1 .. N-1`. -/
theorem masked_payload_eq (M : MaskedModel) (text : String) (topk R B : Nat)
    (hB : 0 < B)
    (hne : ∀ g ∈ windowGroups (maskedTokenized M text).length B, g ≠ []) :
    BERTLM.check_probabilities M text topk R B = some
      { bpe_strings := (maskedTokenized M text).map
          (fun s => BERTLM.postprocess s)
        real_topk := (List.range ((maskedTokenized M text).length - 1)).map
          (fun mi => (whereFirst (maskedTgt M text mi)
              (argsortDesc (maskedRow M text R mi)),
            (maskedRow M text R mi).getD (maskedTgt M text mi) 0))
        pred_topk := (List.range ((maskedTokenized M text).length - 1)).map
          (fun mi => ((argsortDesc (maskedRow M text R mi)).take topk).map
            (fun pk => (BERTLM.postprocess (M.idToTok pk),
              (maskedRow M text R mi).getD pk 0))) } := by
  have hlen : ((M.tokenize ("[CLS] " ++ M.arabert_prep text ++
      " [SEP]")).map M.tokToId).length = (maskedTokenized M text).length := by
    simp [maskedTokenized]
  have hany : (windowGroups ((M.tokenize ("[CLS] " ++ M.arabert_prep text ++
      " [SEP]")).map M.tokToId).length B).any (fun g => g.isEmpty) = false := by
    rw [hlen]
    exact windowGroups_any_false hne
  simp only [BERTLM.check_probabilities]
  rw [hany]
  simp only [Bool.false_eq_true, if_false]
  refine congrArg some ?_
  simp only [Payload.mk.injEq]
  refine ⟨rfl, ?_, ?_⟩
  · rw [List.zip_map']
    simp only [List.map_map, hlen]
    rw [← windowGroups_flatten (maskedTokenized M text).length B hB,
      List.map_flatten]
    refine congrArg List.flatten (List.map_eq_map_iff.mpr ?_)
    intro g _
    simp only [Function.comp_apply, List.map_map]
    exact real_batch_eq g _ _
  · rw [List.zip_map']
    simp only [List.map_map, hlen]
    rw [← windowGroups_flatten (maskedTokenized M text).length B hB,
      List.map_flatten, List.map_flatten]
    refine congrArg List.flatten ?_
    rw [List.map_map]
    refine List.map_eq_map_iff.mpr ?_
    intro g _
    simp only [Function.comp_apply, List.map_map]
    exact pred_batch_eq topk _ _ g _

theorem map_range_getD_lt (n i : Nat) (f : Nat → α) (d : α) (h : i < n) :
    ((List.range n).map f).getD i d = f i := by
  rw [List.getD_eq_getElem _ _ (by simpa using h), List.getElem_map,
    List.getElem_range]

theorem causalRow_bound {M : CausalModel} {text : String}
    (hdist : ∀ row ∈ M.forwardProbs (causalCtx M text),
      ∀ x ∈ row, 0 ≤ x ∧ x ≤ 1) (i : Nat) :
    ∀ x ∈ causalRow M text i, 0 ≤ x ∧ x ≤ 1 := by
  unfold causalRow
  by_cases h : i < ((M.forwardProbs (causalCtx M text)).dropLast).length
  · rw [List.getD_eq_getElem _ _ h]
    intro x hx
    exact hdist _ ((List.dropLast_sublist _).subset (List.getElem_mem h)) x hx
  · rw [List.getD_eq_default _ _ (Nat.le_of_not_lt h)]
    intro x hx
    simp at hx

theorem maskedRow_bound {M : MaskedModel} {text : String} {R mi : Nat}
    (hdist : ∀ w, ∀ row ∈ M.forwardProbs w, ∀ x ∈ row, 0 ≤ x ∧ x ≤ 1) :
    ∀ x ∈ maskedRow M text R mi, 0 ≤ x ∧ x ≤ 1 := by
  unfold maskedRow
  set w := buildWindow (maskedToks M text) M.mask_tok M.pad R mi with hw
  by_cases h : R + 1 < (M.forwardProbs w).length
  · rw [List.getD_eq_getElem _ _ h]
    intro x hx
    exact hdist w _ (List.getElem_mem h) x hx
  · rw [List.getD_eq_default _ _ (Nat.le_of_not_lt h)]
    intro x hx
    simp at hx

/-! ## The claims -/

/-- **C9.** The two causal pipeline variants (registered as `aragpt2-base`
and `aragpt2-mega`) are observably equivalent: with the same injected
collaborators and the same input and `topk`, `check_probabilities` returns
equal payloads and `postprocess` returns equal strings; the only variation
point is which model-loading capability the constructor binds. -/
theorem C9_theorem :
    (∀ (M : CausalModel) (text : String) (topk : Nat),
      LMbase.check_probabilities M text topk =
        LMmega.check_probabilities M text topk) ∧
    (∀ token : String, LMbase.postprocess token = LMmega.postprocess token) :=
  ⟨fun _ _ _ => rfl, fun _ => rfl⟩

/-- **C10.** When the tokenized length `N` (markers included) satisfies
`(N - 1) % batch_size = 0`, the batch-construction loop produces an empty
final group and the call fails at the concatenation of that empty group
(modelled as returning `none`) instead of returning a payload; for every
other `N ≥ 1` every constructed group is non-empty. -/
theorem C10_theorem : ∀ (N B : Nat), 0 < B → 1 ≤ N →
    (((N - 1) % B = 0 →
      (windowGroups N B).getLast? = some [] ∧
      ∀ (M : MaskedModel) (text : String) (topk R : Nat),
        (maskedTokenized M text).length = N →
        BERTLM.check_probabilities M text topk R B = none) ∧
     ((N - 1) % B ≠ 0 → ∀ g ∈ windowGroups N B, g ≠ [])) := by
  intro N B hB hN
  constructor
  · intro hmod
    refine ⟨windowGroups_getLast N B hB hN hmod, ?_⟩
    intro M text topk R hlen
    have hmem : ([] : List Nat) ∈ windowGroups N B :=
      List.mem_of_mem_getLast? (windowGroups_getLast N B hB hN hmod)
    have hany : (windowGroups ((M.tokenize ("[CLS] " ++ M.arabert_prep text ++
        " [SEP]")).map M.tokToId).length B).any (fun g => g.isEmpty) =
        true := by
      rw [show ((M.tokenize ("[CLS] " ++ M.arabert_prep text ++
          " [SEP]")).map M.tokToId).length = N from by
        simpa [maskedTokenized] using hlen]
      exact List.any_eq_true.mpr ⟨[], hmem, rfl⟩
    simp only [BERTLM.check_probabilities]
    rw [hany]
    simp
  · exact fun hmod => windowGroups_ne_nil N B hB hmod

/-- C10 witness: with `N = 21, B = 20` the last group is empty and the call
on a 21-token input fails; with `N = 22, B = 20` the second group `[20]` is
non-empty. -/
theorem C10_witness :
    ((windowGroups 21 20).getLast? = some [] ∧
     BERTLM.check_probabilities mmodel21 "" 5 20 20 = none) ∧
    ([20] : List Nat) ≠ [] := by
  have h1 := (C10_theorem 21 20 (by norm_num) (by norm_num)).1 (by norm_num)
  have h2 := (C10_theorem 22 20 (by norm_num) (by norm_num)).2 (by norm_num)
  exact ⟨⟨h1.1, h1.2 mmodel21 "" 5 20 (by decide)⟩,
    h2 [20] (by decide)⟩

/-- **C1.** Claimed: the payload's three sequences always have equal
length.  Counterexample: on a 2-token context the causal payload's
`bpe_strings` has 2 entries while `real_topk` and `pred_topk` have 1. -/
theorem C1_counterexample :
    (LMbase.check_probabilities cmodel2 "x" 5).bpe_strings.length = 2 ∧
    (LMbase.check_probabilities cmodel2 "x" 5).real_topk.length = 1 ∧
    (LMbase.check_probabilities cmodel2 "x" 5).pred_topk.length = 1 ∧
    ¬ ((LMbase.check_probabilities cmodel2 "x" 5).bpe_strings.length =
        (LMbase.check_probabilities cmodel2 "x" 5).real_topk.length) := by
  decide

/-- **C1** (amended): in both pipelines `real_topk` and `pred_topk` have
equal length `N - 1` (one entry per evaluated prediction) while
`bpe_strings` has length `N` (one entry per token of the full sequence). -/
theorem C1_theorem :
    (∀ (M : CausalModel) (text : String) (topk : Nat),
      (LMbase.check_probabilities M text topk).real_topk.length =
          (causalCtx M text).length - 1 ∧
      (LMbase.check_probabilities M text topk).pred_topk.length =
          (causalCtx M text).length - 1 ∧
      (LMbase.check_probabilities M text topk).bpe_strings.length =
          (causalCtx M text).length) ∧
    (∀ (M : MaskedModel) (text : String) (topk R B : Nat), 0 < B →
      ∀ p, BERTLM.check_probabilities M text topk R B = some p →
        p.real_topk.length = (maskedTokenized M text).length - 1 ∧
        p.pred_topk.length = (maskedTokenized M text).length - 1 ∧
        p.bpe_strings.length = (maskedTokenized M text).length) := by
  constructor
  · intro M text topk
    rw [causal_payload_eq]
    simp
  · intro M text topk R B hB p hp
    rw [masked_payload_eq M text topk R B hB (masked_some_ne_empty hp)] at hp
    injection hp with hp
    subst hp
    simp

/-- C1 witness: the amended length relation at concrete collaborators. -/
theorem C1_witness :
    ((LMbase.check_probabilities cmodel2 "x" 5).real_topk.length =
        (causalCtx cmodel2 "x").length - 1) ∧
    mm3payload.real_topk.length = (maskedTokenized mmodel3 "").length - 1 := by
  exact ⟨(C1_theorem.1 cmodel2 "x" 5).1,
    (C1_theorem.2 mmodel3 "" 5 20 20 (by norm_num) mm3payload (by decide)).1⟩

/-- **C2.** Claimed: the masked payload's rank entries cover exactly the
non-boundary positions, and a 3-token input with `R = 20, K = 5` yields
exactly 1 entry.  Counterexample: the 3-token input yields 2 entries — the
loop also masks the final boundary marker. -/
theorem C2_counterexample :
    (maskedTokenized mmodel3 "").length = 3 ∧
    (BERTLM.check_probabilities mmodel3 "" 5 20 20).map
        (fun p => p.real_topk.length) = some 2 ∧
    ¬ ((BERTLM.check_probabilities mmodel3 "" 5 20 20).map
        (fun p => p.real_topk.length) = some 1) := by
  decide

/-- **C2** (amended): the masked payload's rank entries cover exactly the
token positions `1 .. N-1` — every position except the start marker but
including the end marker; entry `i` is computed from the ground-truth id at
position `i + 1`.  A 3-token input therefore yields exactly 2 entries. -/
theorem C2_theorem : ∀ (M : MaskedModel) (text : String) (topk R B : Nat),
    0 < B → ∀ p, BERTLM.check_probabilities M text topk R B = some p →
    p.real_topk.length = (maskedTokenized M text).length - 1 ∧
    ∀ i, i < (maskedTokenized M text).length - 1 →
      p.real_topk[i]? = some (whereFirst (maskedTgt M text i)
          (argsortDesc (maskedRow M text R i)),
        (maskedRow M text R i).getD (maskedTgt M text i) 0) := by
  intro M text topk R B hB p hp
  rw [masked_payload_eq M text topk R B hB (masked_some_ne_empty hp)] at hp
  injection hp with hp
  subst hp
  constructor
  · simp
  · intro i hi
    exact map_range_getElem? _ _ _ hi

/-- C2 witness: the amended coverage at a concrete 3-token input. -/
theorem C2_witness :
    mm3payload.real_topk.length = (maskedTokenized mmodel3 "").length - 1 ∧
    mm3payload.real_topk[0]? = some (whereFirst (maskedTgt mmodel3 "" 0)
        (argsortDesc (maskedRow mmodel3 "" 20 0)),
      (maskedRow mmodel3 "" 20 0).getD (maskedTgt mmodel3 "" 0) 0) := by
  have h := C2_theorem mmodel3 "" 5 20 20 (by norm_num) mm3payload (by decide)
  exact ⟨h.1, h.2 0 (by decide)⟩

/-- **C3.** Claimed: empty input fails with a typed `EmptyInputError` in
both pipelines.  Counterexample: no such check exists — on the empty
input's 2-token sequence the masked pipeline returns a payload (with a rank
entry for the end marker) instead of failing. -/
theorem C3_counterexample :
    (maskedTokenized mmodel2 "").length = 2 ∧
    (BERTLM.check_probabilities mmodel2 "" 40 20 20).isSome = true ∧
    (BERTLM.check_probabilities mmodel2 "" 40 20 20).map
        (fun p => p.real_topk.length) = some 1 := by
  decide

/-- **C3** (amended): neither pipeline checks for empty input and no
`EmptyInputError` exists; whenever the input tokenizes to just the two
boundary markers (`N = 2`) and the batch size exceeds 1, the masked
pipeline returns a payload with exactly one rank entry — for the end
marker — rather than failing. -/
theorem C3_theorem : ∀ (M : MaskedModel) (text : String) (topk R B : Nat),
    1 < B → (maskedTokenized M text).length = 2 →
    (BERTLM.check_probabilities M text topk R B).map
        (fun p => p.real_topk.length) = some 1 := by
  intro M text topk R B hB hN
  have hne : ∀ g ∈ windowGroups (maskedTokenized M text).length B, g ≠ [] := by
    rw [hN]
    refine windowGroups_ne_nil 2 B (by omega) ?_
    rw [Nat.mod_eq_of_lt hB]
    omega
  rw [masked_payload_eq M text topk R B (by omega) hne]
  simp [hN]

/-- C3 witness: the amended behavior at a concrete empty input. -/
theorem C3_witness :
    (BERTLM.check_probabilities mmodel2 "" 7 20 20).map
        (fun p => p.real_topk.length) = some 1 :=
  C3_theorem mmodel2 "" 7 20 20 (by norm_num) (by decide)

/-- **C4.** Claimed: every window has width `2R + 1` with the mask id at
local offset `R`.  Counterexample: in an interior window with `R = 2` the
offset-`R` element is the untouched token `15`, and the mask id `99` sits
at offset `R + 1 = 3`. -/
theorem C4_counterexample :
    (buildWindow [10, 11, 12, 13, 14, 15, 16, 17, 18, 19] 99 77 2 5).length
        = 2 * 2 + 1 ∧
    (buildWindow [10, 11, 12, 13, 14, 15, 16, 17, 18, 19] 99 77 2 5)[2]? =
        some 15 ∧
    ¬ ((buildWindow [10, 11, 12, 13, 14, 15, 16, 17, 18, 19] 99 77 2 5)[2]? =
        some 99) ∧
    (buildWindow [10, 11, 12, 13, 14, 15, 16, 17, 18, 19] 99 77 2 5)[2 + 1]? =
        some 99 := by
  decide

/-- **C4** (amended): every window (target `p ≤ N - 2`) has total width
exactly `2R + 1`; for `p ≤ N - 3` and `R ≥ 1` the mask id sits at local
offset `R + 1` — the extraction offset `max_context + 1` — not `R`; for the
last target `p = N - 2` the slice bound `N - 1` cuts the masked position
off and offset `R + 1` holds the pad id; for `p < R` in a document longer
than `2R + 1` the left padding is exactly `R - p` pad ids. -/
theorem C4_theorem : ∀ (y : List Nat) (mask_tok pad R p : Nat),
    p + 2 ≤ y.length →
    ((buildWindow y mask_tok pad R p).length = 2 * R + 1) ∧
    (1 ≤ R → p + 3 ≤ y.length →
      (buildWindow y mask_tok pad R p)[R + 1]? = some mask_tok) ∧
    (1 ≤ R → p + 2 = y.length →
      (buildWindow y mask_tok pad R p)[R + 1]? = some pad) ∧
    (p < R → 2 * R + 1 < y.length →
      (buildWindow y mask_tok pad R p).take (R - p) =
        List.replicate (R - p) pad) := by
  intro y m pd R p h
  exact ⟨buildWindow_length y m pd R p h,
    fun h1 h2 => buildWindow_mask y m pd R p h1 h2,
    fun h1 h2 => buildWindow_lastPad y m pd R p h1 h2,
    fun h1 h2 => buildWindow_leftPad y m pd R p h1 h2⟩

/-- C4 witness: width, mask offset `R + 1`, left padding `R - p`, and the
cut-off last target, at concrete windows with `R = 2`. -/
theorem C4_witness :
    ((buildWindow [10, 11, 12, 13, 14, 15, 16, 17, 18, 19] 99 77 2 1).length
        = 2 * 2 + 1 ∧
     (buildWindow [10, 11, 12, 13, 14, 15, 16, 17, 18, 19] 99 77 2 1)[2 + 1]?
        = some 99 ∧
     (buildWindow [10, 11, 12, 13, 14, 15, 16, 17, 18, 19] 99 77 2 1).take
        (2 - 1) = List.replicate (2 - 1) 77) ∧
    (buildWindow [10, 11, 12, 13, 14, 15, 16, 17, 18, 19] 99 77 2 8)[2 + 1]?
        = some 77 := by
  have h1 := C4_theorem [10, 11, 12, 13, 14, 15, 16, 17, 18, 19] 99 77 2 1
    (by decide)
  have h2 := C4_theorem [10, 11, 12, 13, 14, 15, 16, 17, 18, 19] 99 77 2 8
    (by decide)
  exact ⟨⟨h1.1, h1.2.1 (by decide) (by decide),
    h1.2.2.2 (by decide) (by decide)⟩, h2.2.2.1 (by decide) (by decide)⟩

/-- **C5.** Claimed: in both pipelines every probability in the payload is
rounded to exactly 5 decimal places.  Counterexample: the masked pipeline
does not round — a rank-entry probability comes out as `1/3`, which is not
a 5-decimal value. -/
theorem C5_counterexample :
    (BERTLM.check_probabilities mmodel3 "" 5 20 20).map
        (fun p => (p.real_topk.getD 0 (0, 0)).2) = some (mkRat 1 3) ∧
    ¬ (round5 (mkRat 1 3) = mkRat 1 3) := by
  constructor
  · decide
  · unfold round5
    rw [Rat.mkRat_eq_div]
    norm_num [round_eq]

/-- **C5** (amended): the causal pipeline's rank-entry and top-K
probabilities are all 5-decimal-rounded values in `[0, 1]` (given that the
normalized forward rows are probability vectors); the masked pipeline's
probabilities lie in `[0, 1]` but are returned unrounded. -/
theorem C5_theorem :
    (∀ (M : CausalModel) (text : String) (topk : Nat),
      (∀ row ∈ M.forwardProbs (causalCtx M text),
        ∀ x ∈ row, 0 ≤ x ∧ x ≤ 1) →
      (∀ e ∈ (LMbase.check_probabilities M text topk).real_topk,
        round5 e.2 = e.2 ∧ 0 ≤ e.2 ∧ e.2 ≤ 1) ∧
      (∀ pr ∈ (LMbase.check_probabilities M text topk).pred_topk, ∀ e ∈ pr,
        round5 e.2 = e.2 ∧ 0 ≤ e.2 ∧ e.2 ≤ 1)) ∧
    (∀ (M : MaskedModel) (text : String) (topk R B : Nat) (p : Payload),
      0 < B → BERTLM.check_probabilities M text topk R B = some p →
      (∀ w, ∀ row ∈ M.forwardProbs w, ∀ x ∈ row, 0 ≤ x ∧ x ≤ 1) →
      (∀ e ∈ p.real_topk, 0 ≤ e.2 ∧ e.2 ≤ 1) ∧
      (∀ pr ∈ p.pred_topk, ∀ e ∈ pr, 0 ≤ e.2 ∧ e.2 ≤ 1)) := by
  constructor
  · intro M text topk hdist
    rw [causal_payload_eq]
    constructor
    · intro e he
      rcases List.mem_map.mp he with ⟨i, _, rfl⟩
      have hq := getD_bound (causalRow_bound hdist i) (causalTgt M text i)
      exact ⟨round5_idem _, round5_nonneg hq.1, round5_le_one hq.2⟩
    · intro pr hpr e he
      rcases List.mem_map.mp hpr with ⟨i, _, rfl⟩
      rcases List.mem_map.mp he with ⟨pk, _, rfl⟩
      have hq := getD_bound (causalRow_bound hdist i) pk
      exact ⟨round5_idem _, round5_nonneg hq.1, round5_le_one hq.2⟩
  · intro M text topk R B p hB hp hdist
    rw [masked_payload_eq M text topk R B hB (masked_some_ne_empty hp)] at hp
    injection hp with hp
    subst hp
    constructor
    · intro e he
      rcases List.mem_map.mp he with ⟨i, _, rfl⟩
      exact getD_bound (maskedRow_bound hdist) (maskedTgt M text i)
    · intro pr hpr e he
      rcases List.mem_map.mp hpr with ⟨i, _, rfl⟩
      rcases List.mem_map.mp he with ⟨pk, _, rfl⟩
      exact getD_bound (maskedRow_bound hdist) pk

/-- C5 witness: the amended rounding/range facts at concrete
collaborators. -/
theorem C5_witness :
    (∀ e ∈ (LMbase.check_probabilities cmodel2 "x" 5).real_topk,
      round5 e.2 = e.2 ∧ 0 ≤ e.2 ∧ e.2 ≤ 1) ∧
    (∀ e ∈ mm3payload.real_topk, 0 ≤ e.2 ∧ e.2 ≤ 1) := by
  refine ⟨(C5_theorem.1 cmodel2 "x" 5 ?_).1,
    (C5_theorem.2 mmodel3 "" 5 20 20 mm3payload (by norm_num) (by decide)
      ?_).1⟩
  · decide
  · intro w
    show ∀ row ∈ List.replicate 22 [mkRat 1 6, mkRat 1 3, mkRat 1 2],
      ∀ x ∈ row, 0 ≤ x ∧ x ≤ 1
    decide

/-- **C6.** In both pipelines, the rank at every predicted position equals
its position in the stable descending sort (ties by index); it is below the
vocabulary size, and — when no other vocabulary entry ties with the
ground-truth score — it equals the count of entries with strictly greater
score, and is `0` exactly when the ground truth attains the maximum. -/
theorem C6_theorem :
    (∀ (M : CausalModel) (text : String) (topk i : Nat),
      i < (causalCtx M text).length - 1 →
      causalTgt M text i < (causalRow M text i).length →
      (∀ j < (causalRow M text i).length, j ≠ causalTgt M text i →
        (causalRow M text i).getD j 0 ≠
          (causalRow M text i).getD (causalTgt M text i) 0) →
      (((LMbase.check_probabilities M text topk).real_topk.getD i (0, 0)).1 <
          (causalRow M text i).length ∧
       ((LMbase.check_probabilities M text topk).real_topk.getD i (0, 0)).1 =
          strictGreaterCount (causalRow M text i) (causalTgt M text i) ∧
       (((LMbase.check_probabilities M text topk).real_topk.getD i
            (0, 0)).1 = 0 ↔
          ∀ j < (causalRow M text i).length,
            (causalRow M text i).getD j 0 ≤
              (causalRow M text i).getD (causalTgt M text i) 0))) ∧
    (∀ (M : MaskedModel) (text : String) (topk R B i : Nat) (p : Payload),
      0 < B → BERTLM.check_probabilities M text topk R B = some p →
      i < (maskedTokenized M text).length - 1 →
      maskedTgt M text i < (maskedRow M text R i).length →
      (∀ j < (maskedRow M text R i).length, j ≠ maskedTgt M text i →
        (maskedRow M text R i).getD j 0 ≠
          (maskedRow M text R i).getD (maskedTgt M text i) 0) →
      ((p.real_topk.getD i (0, 0)).1 < (maskedRow M text R i).length ∧
       (p.real_topk.getD i (0, 0)).1 =
          strictGreaterCount (maskedRow M text R i) (maskedTgt M text i) ∧
       ((p.real_topk.getD i (0, 0)).1 = 0 ↔
          ∀ j < (maskedRow M text R i).length,
            (maskedRow M text R i).getD j 0 ≤
              (maskedRow M text R i).getD (maskedTgt M text i) 0))) := by
  constructor
  · intro M text topk i hi hy hnotie
    rw [causal_payload_eq]
    simp only [map_range_getD_lt _ i _ _ hi]
    exact ⟨rank_lt_length _ _ hy,
      rank_eq_strictGreaterCount _ _ hy hnotie,
      rank_zero_iff _ _ hy hnotie⟩
  · intro M text topk R B i p hB hp hi hy hnotie
    rw [masked_payload_eq M text topk R B hB (masked_some_ne_empty hp)] at hp
    injection hp with hp
    subst hp
    simp only [map_range_getD_lt _ i _ _ hi]
    exact ⟨rank_lt_length _ _ hy,
      rank_eq_strictGreaterCount _ _ hy hnotie,
      rank_zero_iff _ _ hy hnotie⟩

/-- C6 witness: the rank characterization at concrete collaborators with
tie-free rows. -/
theorem C6_witness :
    (((LMbase.check_probabilities cmodel2 "x" 5).real_topk.getD 0 (0, 0)).1 =
        strictGreaterCount (causalRow cmodel2 "x" 0)
          (causalTgt cmodel2 "x" 0)) ∧
    ((mm3payload.real_topk.getD 0 (0, 0)).1 =
        strictGreaterCount (maskedRow mmodel3 "" 20 0)
          (maskedTgt mmodel3 "" 0)) := by
  have h1 := (C6_theorem.1 cmodel2 "x" 5 0 (by decide) (by decide)
    (by decide)).2.1
  have h2 := (C6_theorem.2 mmodel3 "" 5 20 20 0 mm3payload (by norm_num)
    (by decide) (by decide) (by decide) (by decide)).2.1
  exact ⟨h1, h2⟩

/-- **C7.** In both pipelines, every predicted position's top-K list has
length `min topk V` (`V` the length of that position's score row) and its
probabilities are non-increasing. -/
theorem C7_theorem :
    (∀ (M : CausalModel) (text : String) (topk i : Nat),
      i < (causalCtx M text).length - 1 →
      ((LMbase.check_probabilities M text topk).pred_topk.getD i []).length =
          min topk (causalRow M text i).length ∧
      ((LMbase.check_probabilities M text topk).pred_topk.getD i
          []).Pairwise (fun a b => b.2 ≤ a.2)) ∧
    (∀ (M : MaskedModel) (text : String) (topk R B i : Nat) (p : Payload),
      0 < B → BERTLM.check_probabilities M text topk R B = some p →
      i < (maskedTokenized M text).length - 1 →
      (p.pred_topk.getD i []).length = min topk (maskedRow M text R i).length ∧
      (p.pred_topk.getD i []).Pairwise (fun a b => b.2 ≤ a.2)) := by
  constructor
  · intro M text topk i hi
    rw [causal_payload_eq]
    simp only [map_range_getD_lt _ i _ _ hi]
    constructor
    · simp [argsortDesc_length]
    · refine List.pairwise_map.mpr ?_
      refine List.Pairwise.imp ?_
        (((argsortDesc_sorted (causalRow M text i)).sublist
          (List.take_sublist topk _)))
      intro a b hab
      exact round5_mono hab
  · intro M text topk R B i p hB hp hi
    rw [masked_payload_eq M text topk R B hB (masked_some_ne_empty hp)] at hp
    injection hp with hp
    subst hp
    simp only [map_range_getD_lt _ i _ _ hi]
    constructor
    · simp [argsortDesc_length]
    · refine List.pairwise_map.mpr ?_
      refine List.Pairwise.imp ?_
        (((argsortDesc_sorted (maskedRow M text R i)).sublist
          (List.take_sublist topk _)))
      intro a b hab
      exact hab

/-- C7 witness: top-K length and sortedness at concrete collaborators. -/
theorem C7_witness :
    (((LMbase.check_probabilities cmodel2 "x" 5).pred_topk.getD 0 []).length =
        min 5 (causalRow cmodel2 "x" 0).length) ∧
    ((mm3payload.pred_topk.getD 0 []).Pairwise
        (fun a b => b.2 ≤ a.2)) := by
  have h1 := (C7_theorem.1 cmodel2 "x" 5 0 (by decide)).1
  have h2 := (C7_theorem.2 mmodel3 "" 5 20 20 0 mm3payload (by norm_num)
    (by decide) (by decide)).2
  exact ⟨h1, h2⟩

/-- **C8.** Claimed: with the default flags (both false), a token without a
special prefix passes through both postprocessors unchanged.
Counterexample: the masked-family postprocessor's leading-space flag
defaults to `true`, so the unprefixed token `"a"` comes back with the
leading-space marker prepended. -/
theorem C8_counterexample :
    strPre "##" "a" = false ∧ ("a" == "[SEP]") = false ∧
    BERTLM.postprocess "a" = "Ġa" ∧ ¬ (BERTLM.postprocess "a" = "a") := by
  decide

/-- **C8** (amended): the byte-level (causal) postprocessor returns a token
with none of its special prefixes (`Ġ â Ċ ľ Ŀ Ļ`) unchanged — there both
flags do default to false; the continuation-marker (masked) postprocessor's
leading-space flag defaults to true, so a token without the `##` marker and
different from `[SEP]` is returned with the leading-space marker
prepended, not unchanged. -/
theorem C8_theorem :
    (∀ token : String, strPre "Ġ" token = false → strPre "â" token = false →
      strPre "Ċ" token = false → strPre "ľ" token = false →
      strPre "Ŀ" token = false → strPre "Ļ" token = false →
      LMbase.postprocess token = token) ∧
    (∀ token : String, strPre "##" token = false → (token == "[SEP]") = false →
      BERTLM.postprocess token = "Ġ" ++ token) := by
  constructor
  · intro token h1 h2 h3 h4 h5 h6
    simp [LMbase.postprocess, h1, h2, h3, h4, h5, h6]
  · intro token h1 h2
    simp [BERTLM.postprocess, h1, h2]

/-- C8 witness: the amended postprocessor behavior at concrete tokens. -/
theorem C8_witness :
    LMbase.postprocess "abc" = "abc" ∧ BERTLM.postprocess "b" = "Ġb" := by
  exact ⟨C8_theorem.1 "abc" (by decide) (by decide) (by decide) (by decide)
      (by decide) (by decide),
    C8_theorem.2 "b" (by decide) (by decide)⟩

end GLTR
